import Mathlib

/-!
# Verification of the `cli` line-ingestion scheduler

Shallow embedding of the repository's core components:

* `src/immediate.ts` (`createImmediate`) — a deferred end-of-tick callback
  holder, modelled together with the event-loop check-phase queue so that the
  firing behaviour of `setImmediate`/`clearImmediate` is captured faithfully.
* `src/history.ts` (`createHistory`) — the recall-history guard.
* `src/cli.ts` / the unnamed companion source (`createCLI`) — the session state
  machine: suppression, pause/resume/prompt, listener registries, input
  handling.  The embedding follows the most evolved variant of the corpus
  (the one with the per-listener error guard in `handleData`), which is the
  variant the claims cite.

Effectful calls on the readline interface (`pause`, `resume`, `prompt(true)`,
listener invocations) are modelled as a trace of `Act` actions; asynchronous
JavaScript control flow is modelled by running each accepted item to
completion atomically, which is adequate for the claims (the source pauses
the underlying stream for the whole span of processing).
-/

/-! ## Deferred callback (`src/immediate.ts`, `createImmediate`)

State of the immediate holder together with the pending check-phase queue of
the event loop.  `C` is the type of callbacks (labels).  In the source:

    let timer;
    const clear = () => {
      if (typeof timer !== 'undefined') { clearImmediate(timer); timer = undefined; }
    };
    const set = (callback) => {
      timer = setImmediate(() => { callback(); clear(); });
    };

Note that `set` overwrites `timer` WITHOUT clearing the previously scheduled
immediate, and the wrapper's trailing `clear()` clears whatever handle `timer`
currently holds. -/
structure ImmState (C : Type) where
  nextId : Nat
  queue : List (Nat × C)
  cancelled : List Nat
  timer : Option Nat
deriving DecidableEq

/-- Fresh immediate holder with an empty check-phase queue. -/
def ImmState.init {C : Type} : ImmState C :=
  { nextId := 0, queue := [], cancelled := [], timer := none }

/-- `clear()`: if a timer handle is held, `clearImmediate` it and drop it. -/
def ImmState.clear {C : Type} (m : ImmState C) : ImmState C :=
  match m.timer with
  | some t => { m with cancelled := t :: m.cancelled, timer := none }
  | none => m

/-- `set(callback)`: schedule a new immediate whose wrapper runs the callback
and then calls `clear()`; store its handle in `timer`.  The previously held
handle is overwritten, not cleared. -/
def ImmState.set {C : Type} (c : C) (m : ImmState C) : ImmState C :=
  { m with nextId := m.nextId + 1,
           queue := m.queue ++ [(m.nextId, c)],
           timer := some m.nextId }

/-- Event-loop check phase: process the scheduled immediates in FIFO order.
A cancelled entry is skipped.  A fired entry runs its callback and then the
wrapper's `clear()`, which cancels whatever handle `timer` currently holds
and empties `timer`.  Returns the callbacks that actually ran, in order. -/
def runImmQueue {C : Type} : List (Nat × C) → List Nat → Option Nat → List C
  | [], _, _ => []
  | (id, c) :: rest, cancelled, timer =>
    if id ∈ cancelled then runImmQueue rest cancelled timer
    else
      match timer with
      | some t => c :: runImmQueue rest (t :: cancelled) none
      | none => c :: runImmQueue rest cancelled none

/-- All callbacks that fire when the current tick ends. -/
def ImmState.fireAll {C : Type} (m : ImmState C) : List C :=
  runImmQueue m.queue m.cancelled m.timer

/-! ## History guard (`src/history.ts`, `createHistory`) -/

/-- State of `createHistory`: the observed (possibly unbound) history array
and the watermark `lockLength` (−1 means "not locked"). -/
structure CLIHistory where
  history : Option (List String)
  lockLength : Int
deriving DecidableEq

/-- `set(newHistory)`: rebind the observed sequence. -/
def setH (h : List String) (s : CLIHistory) : CLIHistory :=
  { s with history := some h }

/-- `lock()`: record the current length as the watermark, or the unlocked
sentinel −1 if no array is bound. -/
def lockH (s : CLIHistory) : CLIHistory :=
  { s with lockLength :=
      match s.history with
      | some h => (h.length : Int)
      | none => -1 }

/-- `unlock()`: clear the watermark. -/
def unlockH (s : CLIHistory) : CLIHistory :=
  { s with lockLength := -1 }

/-- `restore()`: if an array is bound and the guard is locked, splice
`Math.abs(history.length - lockLength)` entries off the front. -/
def restoreH (s : CLIHistory) : CLIHistory :=
  match s.history with
  | some h =>
    if s.lockLength > -1 then
      { s with history := some (h.drop ((h.length : Int) - s.lockLength).natAbs) }
    else s
  | none => s

/-- `clear()`: empty the bound array (no-op when unbound). -/
def clearH (s : CLIHistory) : CLIHistory :=
  match s.history with
  | some _ => { s with history := some [] }
  | none => s

/-! ## Claim C1 — deferred callback last-write-wins -/

/-- Claim C1 (code_bug evidence).  The claim states that after `schedule(f)`
followed by `schedule(g)` in the same tick, `f` is cancelled and never runs
and only the latest callback `g` survives.  Evaluating the embedded
`createImmediate` shows the opposite: `set` does not clear the previously
scheduled immediate, so `f`'s immediate still fires first, and its wrapper's
`clear()` then cancels the overwritten `timer` handle — which by now refers
to `g`.  With labels `0` for `f` and `1` for `g`, the callbacks that fire at
the end of the tick are exactly `[0]`: `f` runs and `g` never does. -/
theorem imm_c1_divergence :
    (ImmState.set 1 (ImmState.set 0 ImmState.init)).fireAll = [0] := by
  decide

/-! ## Claim C3 — history restore truncates to the watermark -/

/-- Claim C3: for a locked guard whose bound sequence has grown (by
prepending, as the readline interface prepends new recall entries) since
`lock()`, `restore()` removes exactly the entries added since `lock()`, so
the final length equals the watermark; `restore()` is a no-op when the guard
is not locked or when no sequence is bound. -/
theorem hist_c3_restore (pre base : List String) (s t u : CLIHistory)
    (hs : s.history = some (pre ++ base)) (hl : s.lockLength = (base.length : Int))
    (ht : ¬ t.lockLength > -1) (hu : u.history = none) :
    restoreH s = { s with history := some base } ∧
    (restoreH s).history = some base ∧
    restoreH t = t ∧ restoreH u = u := by
  have hnat : (((pre ++ base).length : Int) - (base.length : Int)).natAbs
      = pre.length := by
    simp only [List.length_append]
    push_cast
    omega
  have key : restoreH s = { s with history := some base } := by
    simp only [restoreH, hs, hl]
    rw [if_pos (by omega : (base.length : Int) > -1)]
    rw [hnat, List.drop_left]
  refine ⟨key, by rw [key], ?_, ?_⟩
  · cases hth : t.history with
    | none => simp only [restoreH, hth]
    | some h =>
      simp only [restoreH, hth]
      rw [if_neg ht]
  · simp only [restoreH, hu]

/-- Witness for C3 at concrete inputs: history `["new", "old"]` locked at
length 1 restores to `["old"]`; an unlocked guard and an unbound guard are
left untouched. -/
theorem hist_c3_restore_witness :
    restoreH { history := some (["new"] ++ ["old"]), lockLength := 1 }
      = { history := some ["old"], lockLength := 1 } ∧
    restoreH { history := some ["a"], lockLength := -1 }
      = { history := some ["a"], lockLength := -1 } ∧
    restoreH { history := none, lockLength := 3 }
      = { history := none, lockLength := 3 } := by
  have h := hist_c3_restore ["new"] ["old"]
    { history := some (["new"] ++ ["old"]), lockLength := 1 }
    { history := some ["a"], lockLength := -1 }
    { history := none, lockLength := 3 }
    (by decide) (by decide) (by decide) (by decide)
  exact ⟨h.1, h.2.2.1, h.2.2.2⟩

/-! ## The session (`createCLI`)

The embedding follows the evolved variant of `createCLI` (the one the claims
cite): listener registries `dataListeners` / `errorListeners`, the flags
`started` / `closed` / `isIgnoring` / `didSetError`, an `ImmState Unit`
deferred-callback holder whose only ever scheduled callback is
`() => prompt()`, a `CLIHistory` guard bound to the readline history array,
and `rlAttached` recording whether the listeners registered on the readline
interface at construction are still attached (`rl.removeAllListeners()` on
close detaches them).

Data listeners are identified by numeric ids; their behaviour (and the
parser's) lives in a fixed environment `CliEnv`, so that the session state
stays decidable.  Error listeners are the default re-throw handler or a
caller-registered one. -/

/-- An error-listener slot: the implicit default re-throw handler
(`errorHandler`) or a caller-registered listener identified by id. -/
inductive EL : Type
  | dflt : EL
  | custom (id : Nat) : EL
deriving DecidableEq

/-- Observable effects on the readline interface and the listeners. -/
inductive Act : Type
  | pause : Act
  | resume : Act
  | promptA : Act
  | notifyData (id : Nat) (v : String) : Act
  | notifyErr (l : EL) (e : Nat) : Act
deriving DecidableEq

/-- Fixed per-session environment: the optional parser and the behaviour of
each data listener on each value (success or a thrown/rejected error code).
Values and raw input share the type `String` (the generic parameter `T` of
the source is instantiated at its default `string`); errors are numeric
codes. -/
structure CliEnv where
  parser : Option (String → Except Nat String)
  lrun : Nat → String → Except Nat Unit

/-- Session state of `createCLI`. -/
structure Sess where
  started : Bool
  closed : Bool
  isIgnoring : Bool
  didSetError : Bool
  dataListeners : List Nat
  errorListeners : List EL
  imm : ImmState Unit
  hist : CLIHistory
  rlAttached : Bool
deriving DecidableEq

/-- `resume()`: `rl.resume()` unless closed. -/
def resumeTr (s : Sess) : List Act :=
  if s.closed then [] else [Act.resume]

/-- `prompt()`: `rl.prompt(true)` unless closed. -/
def promptTr (s : Sess) : List Act :=
  if s.closed then [] else [Act.promptA]

/-- `ignore(value)`: set `isIgnoring`; when entering, lock the history guard
and resume the source; when leaving, unlock the guard. -/
def ignoreOp (v : Bool) (s : Sess) : Sess × List Act :=
  let s1 := { s with isIgnoring := v }
  if v then ({ s1 with hist := lockH s1.hist }, resumeTr s1)
  else ({ s1 with hist := unlockH s1.hist }, [])

/-- One guarded data-listener invocation from `handleData`:

    async listener => {
      try { await listener(parsed); }
      catch (error) { errorListeners.forEach(listener => listener(error)); }
    }
-/
def guardedRun (env : CliEnv) (els : List EL) (id : Nat) (v : String) : List Act :=
  Act.notifyData id v ::
    match env.lrun id v with
    | Except.ok _ => []
    | Except.error e => els.map (fun l => Act.notifyErr l e)

/-- The `dataListeners.map(...)` / `Promise.all` fan-out of `handleData`:
every listener is invoked with the parsed value; each listener's failure is
routed to the error listeners without affecting the others. -/
def fanOut (env : CliEnv) (els : List EL) (dls : List Nat) (v : String) : List Act :=
  dls.flatMap (fun id => guardedRun env els id v)

/-- `handleData`: run the parser when requested and configured; a parse
failure is routed to the error listeners and processing of the item stops;
otherwise fan the value out to the data listeners. -/
def handleData (env : CliEnv) (s : Sess) (inp : String) (parse : Bool) : List Act :=
  match (if parse then env.parser else none) with
  | some p =>
    match p inp with
    | Except.error e => s.errorListeners.map (fun l => Act.notifyErr l e)
    | Except.ok v => fanOut env s.errorListeners s.dataListeners v
  | none => fanOut env s.errorListeners s.dataListeners inp

/-- `handleInput(input, parse, throwStartError)`: throw a usage error when
required and not started; cancel the pending immediate; while ignoring,
restore the history guard and discard the line; otherwise pause the source,
run `handleData`, and in the `finally` un-ignore, resume the source and
schedule the re-prompt on the immediate. -/
def handleInput (env : CliEnv) (s : Sess) (inp : String) (parse throwSE : Bool) :
    Except Unit (Sess × List Act) :=
  if throwSE && !s.started then Except.error ()
  else
    let s1 : Sess := { s with imm := ImmState.clear s.imm }
    if s1.isIgnoring then
      Except.ok ({ s1 with hist := restoreH s1.hist }, [])
    else
      let tr1 := handleData env s1 inp parse
      let p := ignoreOp false s1
      let s3 : Sess := { p.1 with imm := ImmState.set () p.1.imm }
      Except.ok (s3, Act.pause :: (tr1 ++ p.2 ++ resumeTr p.1))

/-- `cli.data(data)`: inject an already-parsed value (usage error before
`start()`). -/
def dataOp (env : CliEnv) (s : Sess) (d : String) : Except Unit (Sess × List Act) :=
  handleInput env s d false true

/-- `cli.input(input)`: inject raw input to parse (usage error before
`start()`). -/
def inputOp (env : CliEnv) (s : Sess) (i : String) : Except Unit (Sess × List Act) :=
  handleInput env s i true true

/-- Tail of `cli.start(...)` after `started` is set and `ignore(false)` ran
(its trace is `tr0`): feed the seed through `handleInput`, or issue the first
prompt directly. -/
def startSeed (env : CliEnv) (s1 : Sess) (tr0 : List Act)
    (args : Option (String × Bool)) : Sess × List Act :=
  match args with
  | none => (s1, tr0 ++ promptTr s1)
  | some (inp, parse) =>
    match handleInput env s1 inp parse false with
    | Except.ok q => (q.1, tr0 ++ q.2)
    | Except.error _ => (s1, tr0)

/-- `cli.start(...)`: only the first call has effect; it sets `started`,
un-ignores (`ignore(false)`) and runs `startSeed`. -/
def startOp (env : CliEnv) (s : Sess) (args : Option (String × Bool)) :
    Sess × List Act :=
  if s.started then (s, [])
  else
    startSeed env (ignoreOp false { s with started := true }).1
      (ignoreOp false { s with started := true }).2 args

/-- The `rl.on('line', ...)` hook: a raw line from the source, delivered only
while the listeners are attached. -/
def lineEv (env : CliEnv) (s : Sess) (l : String) : Sess × List Act :=
  if s.rlAttached then
    match handleInput env s l true false with
    | Except.ok q => q
    | Except.error _ => (s, [])
  else (s, [])

/-- The `rl.on('history', ...)` hook: the source replaced its history array. -/
def histEv (s : Sess) (h : List String) : Sess :=
  if s.rlAttached then { s with hist := setH h s.hist } else s

/-- The `rl.on('close', ...)` hook: mark closed, reset the flags, detach all
source listeners, clear the bound history and reset both registries. -/
def closeEv (s : Sess) : Sess :=
  if s.rlAttached then
    { s with closed := true, isIgnoring := false, didSetError := false,
             rlAttached := false, hist := clearH s.hist,
             dataListeners := [], errorListeners := [EL.dflt] }
  else s

/-- `cli.on('data', listener)`. -/
def onDataOp (f : Nat) (s : Sess) : Sess :=
  { s with dataListeners := s.dataListeners ++ [f] }

/-- `cli.on('error', listener)`: the first caller-registered error listener
pops the default handler before being pushed. -/
def onErrorOp (f : Nat) (s : Sess) : Sess :=
  if s.didSetError then
    { s with errorListeners := s.errorListeners ++ [EL.custom f] }
  else
    { s with didSetError := true,
             errorListeners := s.errorListeners.dropLast ++ [EL.custom f] }

/-- `indexOf` + `splice(index, 1)`: remove the first occurrence, no-op when
absent. -/
def removeFirst {α : Type} [DecidableEq α] (a : α) : List α → List α
  | [] => []
  | x :: xs => if x = a then xs else x :: removeFirst a xs

/-- `cli.off('data', listener)`. -/
def offDataOp (f : Nat) (s : Sess) : Sess :=
  { s with dataListeners := removeFirst f s.dataListeners }

/-- `cli.off('error', listener)`: when the collection becomes empty, the
default handler is reinstated. -/
def offErrorOp (f : Nat) (s : Sess) : Sess :=
  if removeFirst (EL.custom f) s.errorListeners = [] then
    { s with didSetError := false, errorListeners := [EL.dflt] }
  else
    { s with errorListeners := removeFirst (EL.custom f) s.errorListeners }

/-- End of the current macrotask: the scheduled immediates fire (each one
runs `() => prompt()`), draining the check-phase queue. -/
def tick (s : Sess) : Sess × List Act :=
  ({ s with imm := { nextId := s.imm.nextId, queue := [], cancelled := [],
                     timer := none } },
   (ImmState.fireAll s.imm).flatMap (fun _ => promptTr s))

/-- `createCLI(options)`: fresh state wired to the source, with the final
`return cli.ignore()` entering suppression immediately.  `rlh` is the
readline history array present at construction. -/
def createCLI (rlh : Option (List String)) : Sess :=
  let s0 : Sess :=
    { started := false, closed := false, isIgnoring := false,
      didSetError := false, dataListeners := [], errorListeners := [EL.dflt],
      imm := ImmState.init, hist := { history := rlh, lockLength := -1 },
      rlAttached := true }
  (ignoreOp true s0).1

/-- One step of the session: a public method call or a readline event. -/
inductive CStep (env : CliEnv) : Sess → List Act → Sess → Prop
  | onData (f : Nat) (s : Sess) : CStep env s [] (onDataOp f s)
  | onError (f : Nat) (s : Sess) : CStep env s [] (onErrorOp f s)
  | offData (f : Nat) (s : Sess) : CStep env s [] (offDataOp f s)
  | offError (f : Nat) (s : Sess) : CStep env s [] (offErrorOp f s)
  | ign (v : Bool) (s : Sess) : CStep env s (ignoreOp v s).2 (ignoreOp v s).1
  | strt (args : Option (String × Bool)) (s : Sess) :
      CStep env s (startOp env s args).2 (startOp env s args).1
  | dataS (d : String) (s s' : Sess) (tr : List Act) :
      dataOp env s d = Except.ok (s', tr) → CStep env s tr s'
  | inputS (i : String) (s s' : Sess) (tr : List Act) :
      inputOp env s i = Except.ok (s', tr) → CStep env s tr s'
  | promptS (s : Sess) : CStep env s (promptTr s) s
  | line (l : String) (s : Sess) : CStep env s (lineEv env s l).2 (lineEv env s l).1
  | histE (h : List String) (s : Sess) : CStep env s [] (histEv s h)
  | closeE (s : Sess) : CStep env s [] (closeEv s)
  | tickS (s : Sess) : CStep env s (tick s).2 (tick s).1

/-- Session states reachable from construction. -/
inductive ReachableCli (env : CliEnv) (rlh : Option (List String)) : Sess → Prop
  | init : ReachableCli env rlh (createCLI rlh)
  | step {s s' : Sess} {tr : List Act} :
      ReachableCli env rlh s → CStep env s tr s' → ReachableCli env rlh s'

/-- Concrete environment used by the witnesses: no parser, every listener
succeeds. -/
def env0 : CliEnv :=
  { parser := none, lrun := fun _ _ => Except.ok () }

/-! ## Shared lemmas about `handleInput` -/

/-- While ignoring, `handleInput` cancels the pending immediate, restores the
history guard and discards the input: no action is emitted. -/
theorem handleInput_ignoring (env : CliEnv) (s : Sess) (inp : String)
    (parse tse : Bool) (hig : s.isIgnoring = true)
    (hok : tse = false ∨ s.started = true) :
    handleInput env s inp parse tse
      = Except.ok ({ s with imm := ImmState.clear s.imm,
                            hist := restoreH s.hist }, []) := by
  have hcond : (tse && !s.started) = false := by
    rcases hok with h | h <;> simp [h]
  simp [handleInput, hcond, hig]

/-- Not ignoring, `handleInput` pauses, runs `handleData`, then the cleanup:
un-ignore (which unlocks the guard), resume, schedule the re-prompt. -/
theorem handleInput_processing (env : CliEnv) (s : Sess) (inp : String)
    (parse tse : Bool) (hig : s.isIgnoring = false)
    (hok : tse = false ∨ s.started = true) :
    handleInput env s inp parse tse
      = Except.ok
          ({ s with isIgnoring := false,
                    hist := unlockH s.hist,
                    imm := ImmState.set () (ImmState.clear s.imm) },
           Act.pause ::
             (handleData env { s with imm := ImmState.clear s.imm } inp parse
               ++ resumeTr s)) := by
  have hcond : (tse && !s.started) = false := by
    rcases hok with h | h <;> simp [h]
  simp [handleInput, hcond, hig, ignoreOp, resumeTr]

/-! ## Claim C5 — input before start is a synchronous usage error -/

/-- Claim C5: before `start()`, both `data(v)` and `input(text)` fail
synchronously with the usage error thrown to the caller.  The `Except.error`
return models the synchronous throw: it carries no session change and no
trace, so no data or error listener is invoked and nothing reaches the
error-listener chain. -/
theorem cli_c5_usage_error (env : CliEnv) (s : Sess) (d i : String)
    (h : s.started = false) :
    dataOp env s d = Except.error () ∧ inputOp env s i = Except.error () := by
  constructor <;> simp [dataOp, inputOp, handleInput, h]

/-- Witness for C5: a freshly constructed (not yet started) session. -/
theorem cli_c5_witness :
    dataOp env0 (createCLI (some [])) "x" = Except.error () ∧
    inputOp env0 (createCLI (some [])) "y" = Except.error () :=
  cli_c5_usage_error env0 (createCLI (some [])) "x" "y" (by decide)

/-! ## Claim C6 — suppressed lines are discarded -/

/-- Claim C6: a raw line (and, once started, an injected value) arriving while
the session is suppressing cancels the pending deferred callback, invokes the
History Guard's `restore()`, and discards the input — the result trace is
empty, so no data-notification round occurs, zero listeners are notified, and
the underlying source is not paused. -/
theorem cli_c6_suppressed_discard (env : CliEnv) (s : Sess) (inp : String)
    (parse : Bool) (hig : s.isIgnoring = true) :
    handleInput env s inp parse false
      = Except.ok ({ s with imm := ImmState.clear s.imm,
                            hist := restoreH s.hist }, []) ∧
    (s.started = true →
      handleInput env s inp parse true
        = Except.ok ({ s with imm := ImmState.clear s.imm,
                              hist := restoreH s.hist }, [])) := by
  exact ⟨handleInput_ignoring env s inp parse false hig (Or.inl rfl),
    fun hst => handleInput_ignoring env s inp parse true hig (Or.inr hst)⟩

/-- Witness for C6: a freshly constructed session is suppressing; a line is
discarded with an empty trace. -/
theorem cli_c6_witness :
    handleInput env0 (createCLI (some [])) "x" true false
      = Except.ok ({ createCLI (some []) with
          imm := ImmState.clear (createCLI (some [])).imm,
          hist := restoreH (createCLI (some [])).hist }, []) :=
  (cli_c6_suppressed_discard env0 (createCLI (some [])) "x" true (by decide)).1

/-! ## Claim C8 — start is idempotent beyond the first call -/

/-- Claim C8: once started, every further `start()` call — with or without a
seed — returns the session unchanged and emits no action: no second prompt,
no second seed processed, no state change. -/
theorem cli_c8_start_idempotent (env : CliEnv) (s : Sess)
    (args : Option (String × Bool)) (h : s.started = true) :
    startOp env s args = (s, []) := by
  simp [startOp, h]

/-- Witness for C8: start a fresh session, then start it again with a seed. -/
theorem cli_c8_witness :
    startOp env0 (startOp env0 (createCLI (some [])) none).1 (some ("x", true))
      = ((startOp env0 (createCLI (some [])) none).1, []) :=
  cli_c8_start_idempotent env0 _ _ (by decide)

/-! ## Claim C10 — sessions are constructed suppressing -/

/-- Claim C10: `createCLI`'s final `return cli.ignore()` leaves the new
session suppressing: `isIgnoring` is true and the history guard is locked at
the construction-time history length (the readline interface always carries
a bound history array), so any line event delivered before `start()` is
discarded — the pending immediate is cancelled, the guard restores, no
listener is notified and no action is emitted. -/
theorem cli_c10_constructed_suppressing (rlh : Option (List String))
    (h0 : List String) (hb : rlh = some h0) :
    (createCLI rlh).isIgnoring = true ∧
    (createCLI rlh).hist.lockLength = (h0.length : Int) ∧
    (createCLI rlh).hist.lockLength > -1 ∧
    (∀ (env : CliEnv) (l : String),
      lineEv env (createCLI rlh) l
        = ({ createCLI rlh with
             imm := ImmState.clear (createCLI rlh).imm,
             hist := restoreH (createCLI rlh).hist }, [])) := by
  subst hb
  have hig : (createCLI (some h0)).isIgnoring = true := by
    simp [createCLI, ignoreOp]
  have hlock : (createCLI (some h0)).hist.lockLength = (h0.length : Int) := by
    simp [createCLI, ignoreOp, lockH]
  refine ⟨hig, hlock, by rw [hlock]; omega, ?_⟩
  intro env l
  have hat : (createCLI (some h0)).rlAttached = true := by
    simp [createCLI, ignoreOp]
  simp only [lineEv, hat, if_pos]
  rw [handleInput_ignoring env _ l true false hig (Or.inl rfl)]
  simp [hat]

/-- Witness for C10 at a concrete construction-time history. -/
theorem cli_c10_witness :
    (createCLI (some ["a"])).isIgnoring = true ∧
    (createCLI (some ["a"])).hist.lockLength = ((["a"] : List String).length : Int) ∧
    lineEv env0 (createCLI (some ["a"])) "x"
      = ({ createCLI (some ["a"]) with
           imm := ImmState.clear (createCLI (some ["a"])).imm,
           hist := restoreH (createCLI (some ["a"])).hist }, []) := by
  have h := cli_c10_constructed_suppressing (some ["a"]) ["a"] rfl
  exact ⟨h.1, h.2.1, h.2.2.2 env0 "x"⟩

/-! ## Claim C2 — per-listener error independence -/

/-- Projection keeping only the data-listener invocation events of a trace. -/
def dataEvt : Act → Option (Nat × String)
  | Act.notifyData id v => some (id, v)
  | _ => none

/-- A single guarded listener run always invokes its listener, and its only
other events are error notifications. -/
theorem filterMap_guardedRun (env : CliEnv) (els : List EL) (id : Nat)
    (v : String) :
    (guardedRun env els id v).filterMap dataEvt = [(id, v)] := by
  unfold guardedRun
  cases env.lrun id v with
  | ok _ => simp [dataEvt]
  | error e =>
    simp [dataEvt, List.filterMap_cons, List.filterMap_map, Function.comp]

/-- The invocation events of the fan-out are exactly one per registered data
listener, in registration order, regardless of the listeners' outcomes. -/
theorem fanOut_invokes_all (env : CliEnv) (els : List EL) (dls : List Nat)
    (v : String) :
    (fanOut env els dls v).filterMap dataEvt = dls.map (fun id => (id, v)) := by
  induction dls with
  | nil => rfl
  | cons a t ih =>
    simp only [fanOut] at ih ⊢
    rw [List.flatMap_cons, List.filterMap_append, filterMap_guardedRun, ih]
    rfl

/-- A failing listener's error reaches every error listener. -/
theorem fanOut_routes_errors (env : CliEnv) (els : List EL) (dls : List Nat)
    (v : String) (id : Nat) (hid : id ∈ dls) (e : Nat)
    (he : env.lrun id v = Except.error e) (l : EL) (hl : l ∈ els) :
    Act.notifyErr l e ∈ fanOut env els dls v := by
  unfold fanOut
  rw [List.mem_flatMap]
  refine ⟨id, hid, ?_⟩
  unfold guardedRun
  rw [he]
  exact List.mem_cons_of_mem _ (List.mem_map_of_mem _ hl)

/-- Claim C2: for every accepted item, every registered data listener is
invoked with the value — a rejection or throw from one listener does not
prevent the others from running (the invocation events are exactly the
registered listeners, independently of the outcome function); every
listener's error is routed to the whole error-listener chain; and the error
never escapes to the caller of the scheduler — on a started session
`handleInput` always returns normally. -/
theorem cli_c2_listener_independence (env : CliEnv) (els : List EL)
    (dls : List Nat) (v : String) :
    (fanOut env els dls v).filterMap dataEvt = dls.map (fun id => (id, v)) ∧
    (∀ id ∈ dls, ∀ e : Nat, env.lrun id v = Except.error e →
      ∀ l ∈ els, Act.notifyErr l e ∈ fanOut env els dls v) ∧
    (∀ (s : Sess) (inp : String) (parse : Bool), s.started = true →
      ∃ r, handleInput env s inp parse true = Except.ok r) := by
  refine ⟨fanOut_invokes_all env els dls v, ?_, ?_⟩
  · intro id hid e he l hl
    exact fanOut_routes_errors env els dls v id hid e he l hl
  · intro s inp parse hst
    cases hig : s.isIgnoring with
    | true => exact ⟨_, handleInput_ignoring env s inp parse true hig (Or.inr hst)⟩
    | false => exact ⟨_, handleInput_processing env s inp parse true hig (Or.inr hst)⟩

/-- Environment for the C2 witness: listener 1 rejects with error 7, the
others succeed. -/
def envW : CliEnv :=
  { parser := none,
    lrun := fun i _ => if i = 1 then Except.error 7 else Except.ok () }

/-- A started, non-suppressing session with three data listeners and one
caller error listener. -/
def sW : Sess :=
  { started := true, closed := false, isIgnoring := false,
    didSetError := true, dataListeners := [0, 1, 2],
    errorListeners := [EL.custom 9], imm := ImmState.init,
    hist := { history := some [], lockLength := -1 }, rlAttached := true }

/-- Witness for C2: with listener 1 rejecting, all three listeners are still
invoked, the error reaches the caller error listener, and `handleInput`
returns normally. -/
theorem cli_c2_witness :
    (fanOut envW [EL.custom 9] [0, 1, 2] "v").filterMap dataEvt
      = [0, 1, 2].map (fun id => (id, "v")) ∧
    Act.notifyErr (EL.custom 9) 7 ∈ fanOut envW [EL.custom 9] [0, 1, 2] "v" ∧
    ∃ r, handleInput envW sW "x" true true = Except.ok r := by
  have h := cli_c2_listener_independence envW [EL.custom 9] [0, 1, 2] "v"
  exact ⟨h.1, h.2.1 1 (by decide) 7 (by rfl) (EL.custom 9) (by decide),
    h.2.2 sW "x" true (by decide)⟩

/-! ## Claim C7 — cleanup always runs -/

/-- Claim C7: for every accepted item (started or source-delivered, not
suppressing, session live), whatever the parse step and the data listeners
do — the environment is arbitrary, so this covers parse failures and
listener rejections routed to error listeners — `handleInput` returns with
the cleanup applied: the session is un-suppressed (`ignore(false)`, which
also unlocks the guard), the trace ends with resuming the underlying source,
and a re-prompt callback is scheduled on the deferred-callback holder. -/
theorem cli_c7_cleanup_always (env : CliEnv) (s : Sess) (inp : String)
    (parse tse : Bool) (hok : tse = false ∨ s.started = true)
    (hig : s.isIgnoring = false) (hcl : s.closed = false) :
    ∃ (s' : Sess) (tr : List Act),
      handleInput env s inp parse tse = Except.ok (s', tr) ∧
      tr.getLast? = some Act.resume ∧
      s'.isIgnoring = false ∧ s'.hist.lockLength = -1 ∧
      (∃ t, s'.imm.timer = some t ∧ (t, ()) ∈ s'.imm.queue) := by
  refine ⟨_, _, handleInput_processing env s inp parse tse hig hok, ?_, rfl, ?_, ?_⟩
  · rw [resumeTr, if_neg (by simp [hcl])]
    rw [← List.cons_append, List.getLast?_concat]
  · rfl
  · exact ⟨(ImmState.clear s.imm).nextId, rfl, by simp [ImmState.set]⟩

/-- Witness for C7: a started session whose sole listener rejects — cleanup
still runs. -/
theorem cli_c7_witness :
    ∃ (s' : Sess) (tr : List Act),
      handleInput envW sW "x" true true = Except.ok (s', tr) ∧
      tr.getLast? = some Act.resume ∧
      s'.isIgnoring = false ∧ s'.hist.lockLength = -1 ∧
      (∃ t, s'.imm.timer = some t ∧ (t, ()) ∈ s'.imm.queue) :=
  cli_c7_cleanup_always envW sW "x" true true (Or.inr (by decide))
    (by decide) (by decide)

/-! ## Frame and trace lemmas used by the invariant proofs -/

/-- A successful `handleInput` either took the ignoring branch or the
processing branch; both results are explicit. -/
theorem handleInput_ok_cases (env : CliEnv) (s : Sess) (inp : String)
    (parse tse : Bool) (s' : Sess) (tr : List Act)
    (h : handleInput env s inp parse tse = Except.ok (s', tr)) :
    (s' = { s with imm := ImmState.clear s.imm, hist := restoreH s.hist } ∧
      tr = []) ∨
    (s' = { s with isIgnoring := false, hist := unlockH s.hist,
                   imm := ImmState.set () (ImmState.clear s.imm) } ∧
      tr = Act.pause ::
        (handleData env { s with imm := ImmState.clear s.imm } inp parse
          ++ resumeTr s)) := by
  have hok : tse = false ∨ s.started = true := by
    cases htse : tse with
    | false => exact Or.inl rfl
    | true =>
      cases hst : s.started with
      | true => exact Or.inr rfl
      | false => simp [handleInput, htse, hst] at h
  by_cases hig : s.isIgnoring = true
  · left
    have heq := (handleInput_ignoring env s inp parse tse hig hok).symm.trans h
    simp only [Except.ok.injEq, Prod.mk.injEq] at heq
    exact ⟨heq.1.symm, heq.2.symm⟩
  · right
    have hig' : s.isIgnoring = false := Bool.not_eq_true _ ▸ Bool.of_not_eq_true hig
    have heq := (handleInput_processing env s inp parse tse hig' hok).symm.trans h
    simp only [Except.ok.injEq, Prod.mk.injEq] at heq
    exact ⟨heq.1.symm, heq.2.symm⟩

/-- `handleInput` never touches `started`, `closed`, the listener registries,
`didSetError` or the source attachment. -/
theorem handleInput_frame (env : CliEnv) (s : Sess) (inp : String)
    (parse tse : Bool) (s' : Sess) (tr : List Act)
    (h : handleInput env s inp parse tse = Except.ok (s', tr)) :
    s'.started = s.started ∧ s'.closed = s.closed ∧
    s'.didSetError = s.didSetError ∧ s'.dataListeners = s.dataListeners ∧
    s'.errorListeners = s.errorListeners ∧ s'.rlAttached = s.rlAttached := by
  rcases handleInput_ok_cases env s inp parse tse s' tr h with ⟨rfl, -⟩ | ⟨rfl, -⟩ <;>
    exact ⟨rfl, rfl, rfl, rfl, rfl, rfl⟩

/-- Every action emitted by `handleData` is a listener notification. -/
theorem act_mem_handleData {env : CliEnv} {s : Sess} {inp : String}
    {parse : Bool} {a : Act} (h : a ∈ handleData env s inp parse) :
    (∃ i v, a = Act.notifyData i v) ∨ (∃ l e, a = Act.notifyErr l e) := by
  have hfan : ∀ (els : List EL) (dls : List Nat) (v : String),
      a ∈ fanOut env els dls v →
      (∃ i w, a = Act.notifyData i w) ∨ (∃ l e, a = Act.notifyErr l e) := by
    intro els dls v hv
    unfold fanOut at hv
    rw [List.mem_flatMap] at hv
    obtain ⟨i, hi, hmem⟩ := hv
    unfold guardedRun at hmem
    rcases List.mem_cons.mp hmem with h1 | h1
    · exact Or.inl ⟨i, v, h1⟩
    · cases hrun : env.lrun i v with
      | ok _ => simp [hrun] at h1
      | error e =>
        simp only [hrun] at h1
        obtain ⟨l, _, hl⟩ := List.mem_map.mp h1
        exact Or.inr ⟨l, e, hl.symm⟩
  unfold handleData at h
  cases hp : (if parse then env.parser else none) with
  | none =>
    rw [hp] at h
    exact hfan _ _ _ h
  | some p =>
    rw [hp] at h
    cases hr : p inp with
    | error e =>
      simp only [hr] at h
      obtain ⟨l, _, hl⟩ := List.mem_map.mp h
      exact Or.inr ⟨l, e, hl.symm⟩
    | ok v =>
      simp only [hr] at h
      exact hfan _ _ _ h

/-- From a closed session, a successful `handleInput` never resumes or
prompts the source. -/
theorem handleInput_closed_no_resume (env : CliEnv) (s : Sess) (inp : String)
    (parse tse : Bool) (s' : Sess) (tr : List Act) (hcl : s.closed = true)
    (h : handleInput env s inp parse tse = Except.ok (s', tr)) :
    Act.resume ∉ tr ∧ Act.promptA ∉ tr := by
  rcases handleInput_ok_cases env s inp parse tse s' tr h with ⟨-, rfl⟩ | ⟨-, rfl⟩
  · exact ⟨List.not_mem_nil _, List.not_mem_nil _⟩
  · constructor
    · intro hmem
      rcases List.mem_cons.mp hmem with h1 | h1
      · simp at h1
      · rcases List.mem_append.mp h1 with h2 | h2
        · rcases act_mem_handleData h2 with ⟨i, w, hh⟩ | ⟨l, e, hh⟩ <;> simp at hh
        · simp [resumeTr, hcl] at h2
    · intro hmem
      rcases List.mem_cons.mp hmem with h1 | h1
      · simp at h1
      · rcases List.mem_append.mp h1 with h2 | h2
        · rcases act_mem_handleData h2 with ⟨i, w, hh⟩ | ⟨l, e, hh⟩ <;> simp at hh
        · simp [resumeTr, hcl] at h2

/-- `removeFirst` only ever keeps elements of the original list. -/
theorem mem_removeFirst {α : Type} [DecidableEq α] {a x : α} {l : List α}
    (h : x ∈ removeFirst a l) : x ∈ l := by
  induction l with
  | nil => simp [removeFirst] at h
  | cons b t ih =>
    by_cases hb : b = a
    · rw [removeFirst, if_pos hb] at h
      exact List.mem_cons_of_mem _ h
    · rw [removeFirst, if_neg hb] at h
      rcases List.mem_cons.mp h with h1 | h1
      · exact h1 ▸ List.mem_cons_self _ _
      · exact List.mem_cons_of_mem _ (ih h1)

/-- `ignore` never touches the registries, the flags other than
`isIgnoring`, or the attachment. -/
theorem ignoreOp_frame (v : Bool) (s : Sess) :
    (ignoreOp v s).1.started = s.started ∧
    (ignoreOp v s).1.closed = s.closed ∧
    (ignoreOp v s).1.didSetError = s.didSetError ∧
    (ignoreOp v s).1.dataListeners = s.dataListeners ∧
    (ignoreOp v s).1.errorListeners = s.errorListeners ∧
    (ignoreOp v s).1.rlAttached = s.rlAttached := by
  cases v <;> simp [ignoreOp]

/-- `startSeed` preserves everything `handleInput` preserves. -/
theorem startSeed_frame (env : CliEnv) (s1 : Sess) (tr0 : List Act)
    (args : Option (String × Bool)) :
    (startSeed env s1 tr0 args).1.closed = s1.closed ∧
    (startSeed env s1 tr0 args).1.didSetError = s1.didSetError ∧
    (startSeed env s1 tr0 args).1.dataListeners = s1.dataListeners ∧
    (startSeed env s1 tr0 args).1.errorListeners = s1.errorListeners ∧
    (startSeed env s1 tr0 args).1.rlAttached = s1.rlAttached := by
  cases args with
  | none => exact ⟨rfl, rfl, rfl, rfl, rfl⟩
  | some a =>
    obtain ⟨inp, parse⟩ := a
    cases hh : handleInput env s1 inp parse false with
    | ok q =>
      have hf := handleInput_frame env s1 inp parse false q.1 q.2 (by rw [hh])
      simp only [startSeed, hh]
      exact ⟨hf.2.1, hf.2.2.1, hf.2.2.2.1, hf.2.2.2.2.1, hf.2.2.2.2.2⟩
    | error e =>
      simp [startSeed, hh]

/-- `start` preserves `closed`, the registries, `didSetError` and the
attachment. -/
theorem startOp_frame (env : CliEnv) (s : Sess)
    (args : Option (String × Bool)) :
    (startOp env s args).1.closed = s.closed ∧
    (startOp env s args).1.didSetError = s.didSetError ∧
    (startOp env s args).1.dataListeners = s.dataListeners ∧
    (startOp env s args).1.errorListeners = s.errorListeners ∧
    (startOp env s args).1.rlAttached = s.rlAttached := by
  cases hst : s.started with
  | true => simp [startOp, hst]
  | false =>
    have hs1 : (ignoreOp false { s with started := true }).1
        = { s with started := true, isIgnoring := false,
                   hist := unlockH s.hist } := by
      simp [ignoreOp]
    have hfin := startSeed_frame env (ignoreOp false { s with started := true }).1
      (ignoreOp false { s with started := true }).2 args
    rw [hs1] at hfin
    simp only [startOp, hst, Bool.false_eq_true, if_false]
    rw [hs1]
    exact hfin

/-- `lineEv` preserves `closed`, the registries, `didSetError` and the
attachment. -/
theorem lineEv_frame (env : CliEnv) (s : Sess) (l : String) :
    (lineEv env s l).1.closed = s.closed ∧
    (lineEv env s l).1.didSetError = s.didSetError ∧
    (lineEv env s l).1.dataListeners = s.dataListeners ∧
    (lineEv env s l).1.errorListeners = s.errorListeners ∧
    (lineEv env s l).1.rlAttached = s.rlAttached := by
  unfold lineEv
  by_cases hat : s.rlAttached = true
  · rw [if_pos hat]
    cases hh : handleInput env s l true false with
    | ok q =>
      have hf := handleInput_frame env s l true false q.1 q.2 (by rw [hh])
      exact ⟨hf.2.1, hf.2.2.1, hf.2.2.2.1, hf.2.2.2.2.1, hf.2.2.2.2.2⟩
    | error e => exact ⟨rfl, rfl, rfl, rfl, rfl⟩
  · rw [if_neg hat]
    exact ⟨rfl, rfl, rfl, rfl, rfl⟩

/-! ## Claim C4 — the default error handler occupies a slot iff no caller
error listener is registered -/

/-- Caller-registered (non-default) error-listener slots. -/
def isCustom : EL → Bool
  | EL.dflt => false
  | EL.custom _ => true

/-- Number of slots occupied by the default handler. -/
def numDefault (els : List EL) : Nat := els.count EL.dflt

/-- The caller-registered error listeners. -/
def customEls (els : List EL) : List EL := els.filter isCustom

/-- Strengthened registry invariant: either the registry is in its pristine
shape (`didSetError` unset, exactly the default handler), or a caller has
listeners registered (`didSetError` set, a nonempty all-custom collection). -/
def RegInv (s : Sess) : Prop :=
  (s.didSetError = false ∧ s.errorListeners = [EL.dflt]) ∨
  (s.didSetError = true ∧ s.errorListeners ≠ [] ∧
    ∀ l ∈ s.errorListeners, isCustom l = true)

/-- Transport of the registry invariant along operations that do not touch
the registry. -/
theorem regInv_of_eq {s s' : Sess} (h1 : s'.didSetError = s.didSetError)
    (h2 : s'.errorListeners = s.errorListeners) (h : RegInv s) : RegInv s' := by
  unfold RegInv at h ⊢
  rw [h1, h2]
  exact h

/-- `on('error', f)` preserves the registry invariant. -/
theorem regInv_onError (f : Nat) (s : Sess) (h : RegInv s) :
    RegInv (onErrorOp f s) := by
  unfold RegInv at h ⊢
  rcases h with ⟨hd, he⟩ | ⟨hd, hne, hall⟩
  · right
    have heq : onErrorOp f s
        = { s with didSetError := true,
                   errorListeners := s.errorListeners.dropLast ++ [EL.custom f] } := by
      simp [onErrorOp, hd]
    rw [heq]
    refine ⟨rfl, by simp [he], ?_⟩
    intro l hl
    rw [he] at hl
    simp at hl
    rw [hl]
    rfl
  · right
    have heq : onErrorOp f s
        = { s with errorListeners := s.errorListeners ++ [EL.custom f] } := by
      simp [onErrorOp, hd]
    rw [heq]
    refine ⟨hd, by simp, ?_⟩
    intro l hl
    rcases List.mem_append.mp hl with h1 | h1
    · exact hall l h1
    · simp at h1
      rw [h1]
      rfl

/-- `off('error', f)` preserves the registry invariant. -/
theorem regInv_offError (f : Nat) (s : Sess) (h : RegInv s) :
    RegInv (offErrorOp f s) := by
  unfold RegInv at h ⊢
  unfold offErrorOp
  rcases h with ⟨hd, he⟩ | ⟨hd, hne, hall⟩
  · rw [he]
    have hrm : removeFirst (EL.custom f) [EL.dflt] = [EL.dflt] := by
      simp [removeFirst]
    rw [hrm]
    rw [if_neg (by simp : ¬ ([EL.dflt] : List EL) = [])]
    left
    exact ⟨hd, rfl⟩
  · by_cases hemp : removeFirst (EL.custom f) s.errorListeners = []
    · rw [if_pos hemp]
      left
      exact ⟨rfl, rfl⟩
    · rw [if_neg hemp]
      right
      refine ⟨hd, hemp, ?_⟩
      intro l hl
      exact hall l (mem_removeFirst hl)

/-- Session closure resets the registry to its pristine shape. -/
theorem regInv_close (s : Sess) (h : RegInv s) : RegInv (closeEv s) := by
  unfold closeEv
  by_cases hat : s.rlAttached = true
  · rw [if_pos hat]
    left
    exact ⟨rfl, rfl⟩
  · rw [if_neg hat]
    exact h

/-- Every session step preserves the registry invariant. -/
theorem regInv_cstep {env : CliEnv} {s : Sess} {tr : List Act} {s' : Sess}
    (hst : CStep env s tr s') (h : RegInv s) : RegInv s' := by
  cases hst with
  | onData f s => exact regInv_of_eq rfl rfl h
  | onError f s => exact regInv_onError f s h
  | offData f s => exact regInv_of_eq rfl rfl h
  | offError f s => exact regInv_offError f s h
  | ign v s =>
    have hf := ignoreOp_frame v s
    exact regInv_of_eq hf.2.2.1 hf.2.2.2.2.1 h
  | strt args s =>
    have hf := startOp_frame env s args
    exact regInv_of_eq hf.2.1 hf.2.2.2.1 h
  | dataS d s s' tr hh =>
    have hf := handleInput_frame env s d false true s' tr hh
    exact regInv_of_eq hf.2.2.1 hf.2.2.2.2.1 h
  | inputS i s s' tr hh =>
    have hf := handleInput_frame env s i true true s' tr hh
    exact regInv_of_eq hf.2.2.1 hf.2.2.2.2.1 h
  | promptS s => exact h
  | line l s =>
    have hf := lineEv_frame env s l
    exact regInv_of_eq hf.2.1 hf.2.2.2.1 h
  | histE hh s =>
    unfold histEv
    by_cases hat : s.rlAttached = true
    · rw [if_pos hat]; exact regInv_of_eq rfl rfl h
    · rw [if_neg hat]; exact h
  | closeE s => exact regInv_close s h
  | tickS s => exact regInv_of_eq rfl rfl h

/-- The registry invariant holds in every reachable session state. -/
theorem regInv_reachable {env : CliEnv} {rlh : Option (List String)} {s : Sess}
    (h : ReachableCli env rlh s) : RegInv s := by
  induction h with
  | init =>
    left
    constructor
    · simp [createCLI, ignoreOp]
    · simp [createCLI, ignoreOp]
  | step hr hst ih => exact regInv_cstep hst ih

/-- Claim C4: in every reachable session state, the default re-throw handler
occupies exactly one slot of the error-listener collection if and only if the
caller-registered error-listener collection is empty (the count of default
slots is 1 when there are no custom listeners and 0 otherwise); moreover
adding the first caller error listener removes the default, and removing the
last caller error listener reinstates it. -/
theorem cli_c4_default_handler_invariant (env : CliEnv)
    (rlh : Option (List String)) (s : Sess) (h : ReachableCli env rlh s) :
    numDefault s.errorListeners
      = (if customEls s.errorListeners = [] then 1 else 0) ∧
    (∀ f : Nat, customEls s.errorListeners = [] →
      (onErrorOp f s).errorListeners = [EL.custom f]) ∧
    (∀ f : Nat, s.errorListeners = [EL.custom f] →
      (offErrorOp f s).errorListeners = [EL.dflt]) := by
  have hinv := regInv_reachable h
  unfold RegInv at hinv
  refine ⟨?_, ?_, ?_⟩
  · rcases hinv with ⟨hd, he⟩ | ⟨hd, hne, hall⟩
    · rw [he]
      rfl
    · have hmem : EL.dflt ∉ s.errorListeners := by
        intro hmem
        have := hall EL.dflt hmem
        simp [isCustom] at this
      have hcount : numDefault s.errorListeners = 0 :=
        List.count_eq_zero.mpr hmem
      have hcust : customEls s.errorListeners = s.errorListeners :=
        List.filter_eq_self.mpr hall
      rw [hcount, hcust, if_neg hne]
  · intro f hc
    rcases hinv with ⟨hd, he⟩ | ⟨hd, hne, hall⟩
    · simp [onErrorOp, hd, he]
    · have hcust : customEls s.errorListeners = s.errorListeners :=
        List.filter_eq_self.mpr hall
      rw [hcust] at hc
      exact absurd hc hne
  · intro f hf
    have hrm : removeFirst (EL.custom f) s.errorListeners = [] := by
      rw [hf]
      simp [removeFirst]
    simp [offErrorOp, hrm]

/-- Witness for C4 at the freshly constructed session (reachable by
`ReachableCli.init`): one default slot, no custom listeners. -/
theorem cli_c4_witness :
    numDefault (createCLI (some [])).errorListeners
      = (if customEls (createCLI (some [])).errorListeners = [] then 1 else 0) :=
  (cli_c4_default_handler_invariant env0 (some []) (createCLI (some []))
    ReachableCli.init).1

/-! ## Claim C9 — behaviour after the source closes -/

/-- From a closed session, `start` emits neither resume nor prompt. -/
theorem startOp_closed_trace (env : CliEnv) (s : Sess)
    (args : Option (String × Bool)) (hcl : s.closed = true) :
    Act.resume ∉ (startOp env s args).2 ∧ Act.promptA ∉ (startOp env s args).2 := by
  cases hst : s.started with
  | true => simp [startOp, hst]
  | false =>
    have hs1 : (ignoreOp false { s with started := true }).1
        = { s with started := true, isIgnoring := false,
                   hist := unlockH s.hist } := by
      simp [ignoreOp]
    have htr0 : (ignoreOp false { s with started := true }).2 = [] := by
      simp [ignoreOp]
    simp only [startOp, hst, Bool.false_eq_true, if_false, hs1, htr0]
    cases args with
    | none => simp [startSeed, promptTr, hcl]
    | some a =>
      obtain ⟨inp, parse⟩ := a
      cases hh : handleInput env
          { s with started := true, isIgnoring := false, hist := unlockH s.hist }
          inp parse false with
      | ok q =>
        have hnr := handleInput_closed_no_resume env
          { s with started := true, isIgnoring := false, hist := unlockH s.hist }
          inp parse false q.1 q.2 hcl (by rw [hh])
        simp only [startSeed, hh, List.nil_append]
        exact hnr
      | error e => simp [startSeed, hh]

/-- From a closed session, a line event emits neither resume nor prompt. -/
theorem lineEv_closed_trace (env : CliEnv) (s : Sess) (l : String)
    (hcl : s.closed = true) :
    Act.resume ∉ (lineEv env s l).2 ∧ Act.promptA ∉ (lineEv env s l).2 := by
  unfold lineEv
  by_cases hat : s.rlAttached = true
  · rw [if_pos hat]
    cases hh : handleInput env s l true false with
    | ok q =>
      exact handleInput_closed_no_resume env s l true false q.1 q.2 hcl (by rw [hh])
    | error e => simp
  · rw [if_neg hat]
    simp

/-- Closure is absorbing, and from a closed session no step ever resumes or
prompts the source. -/
theorem cstep_closed {env : CliEnv} {s : Sess} {tr : List Act} {s' : Sess}
    (hcl : s.closed = true) (hst : CStep env s tr s') :
    s'.closed = true ∧ Act.resume ∉ tr ∧ Act.promptA ∉ tr := by
  cases hst with
  | onData f s => exact ⟨hcl, List.not_mem_nil _, List.not_mem_nil _⟩
  | onError f s =>
    refine ⟨?_, List.not_mem_nil _, List.not_mem_nil _⟩
    unfold onErrorOp
    split <;> exact hcl
  | offData f s => exact ⟨hcl, List.not_mem_nil _, List.not_mem_nil _⟩
  | offError f s =>
    refine ⟨?_, List.not_mem_nil _, List.not_mem_nil _⟩
    unfold offErrorOp
    split <;> exact hcl
  | ign v s =>
    have hf := ignoreOp_frame v s
    refine ⟨by rw [hf.2.1]; exact hcl, ?_, ?_⟩
    · intro hmem
      cases v <;> simp [ignoreOp, resumeTr, hcl] at hmem
    · intro hmem
      cases v <;> simp [ignoreOp, resumeTr, hcl] at hmem
  | strt args s =>
    have hf := startOp_frame env s args
    have htr := startOp_closed_trace env s args hcl
    exact ⟨by rw [hf.1]; exact hcl, htr.1, htr.2⟩
  | dataS d s s' tr hh =>
    have hf := handleInput_frame env s d false true s' tr hh
    have hnr := handleInput_closed_no_resume env s d false true s' tr hcl hh
    exact ⟨by rw [hf.2.1]; exact hcl, hnr.1, hnr.2⟩
  | inputS i s s' tr hh =>
    have hf := handleInput_frame env s i true true s' tr hh
    have hnr := handleInput_closed_no_resume env s i true true s' tr hcl hh
    exact ⟨by rw [hf.2.1]; exact hcl, hnr.1, hnr.2⟩
  | promptS s =>
    refine ⟨hcl, ?_, ?_⟩ <;> simp [promptTr, hcl]
  | line l s =>
    have hf := lineEv_frame env s l
    have htr := lineEv_closed_trace env s l hcl
    exact ⟨by rw [hf.1]; exact hcl, htr.1, htr.2⟩
  | histE hh s =>
    refine ⟨?_, List.not_mem_nil _, List.not_mem_nil _⟩
    unfold histEv
    split <;> exact hcl
  | closeE s =>
    refine ⟨?_, List.not_mem_nil _, List.not_mem_nil _⟩
    unfold closeEv
    split
    · rfl
    · exact hcl
  | tickS s =>
    refine ⟨hcl, ?_, ?_⟩
    · intro hmem
      obtain ⟨c, -, hc⟩ := List.mem_flatMap.mp hmem
      simp [promptTr, hcl] at hc
    · intro hmem
      obtain ⟨c, -, hc⟩ := List.mem_flatMap.mp hmem
      simp [promptTr, hcl] at hc

/-- Claim C9 (amended): after the source's close event the registries are
reset (data listeners empty, error listeners back to the single default
handler), the bound history is cleared, the source listeners are detached
and the session is marked closed; closure is absorbing, and in every
subsequent step the scheduler never again resumes or prompts the closed
source; line events on a detached source are complete no-ops, so no listener
fires again from source events.  (As stated the claim is false: a direct
`data`/`input` call after close still pauses the closed source — see the
counterexample.) -/
theorem cli_c9_after_close (env : CliEnv) :
    (∀ s : Sess, s.rlAttached = true →
      (closeEv s).closed = true ∧ (closeEv s).rlAttached = false ∧
      (closeEv s).dataListeners = [] ∧
      (closeEv s).errorListeners = [EL.dflt] ∧
      ((closeEv s).hist.history).getD [] = []) ∧
    (∀ (s : Sess) (tr : List Act) (s' : Sess), s.closed = true →
      CStep env s tr s' →
      s'.closed = true ∧ Act.resume ∉ tr ∧ Act.promptA ∉ tr) ∧
    (∀ (s : Sess) (l : String), s.rlAttached = false →
      lineEv env s l = (s, [])) := by
  refine ⟨?_, ?_, ?_⟩
  · intro s hat
    unfold closeEv
    rw [if_pos hat]
    refine ⟨rfl, rfl, rfl, rfl, ?_⟩
    cases hh : s.hist.history <;> simp [clearH, hh]
  · intro s tr s' hcl hst
    exact cstep_closed hcl hst
  · intro s l hat
    unfold lineEv
    rw [if_neg (by simp [hat])]

/-- A started live session (fresh construction followed by `start()`). -/
def sLive : Sess := (startOp env0 (createCLI (some [])) none).1

/-- The same session after the source emitted its close event. -/
def sClosed : Sess := closeEv sLive

/-- Trace of a successful scheduler call (empty for a thrown usage error). -/
def okTrace (r : Except Unit (Sess × List Act)) : List Act :=
  match r with
  | Except.ok p => p.2
  | Except.error _ => []

/-- Counterexample to claim C9 as stated: on the closed session, a direct
`data("x")` call still emits a pause action on the closed source — the
source's `rl.pause()` call in `handleInput` is not guarded by `closed`, so
the scheduler does pause the closed source again, contradicting "the
scheduler never again pauses ... the closed source". -/
theorem cli_c9_counterexample :
    sClosed.closed = true ∧ okTrace (dataOp env0 sClosed "x") = [Act.pause] := by
  decide

/-- Witness for the amended C9 at concrete states: closing the live session
marks it closed, and a line event on the closed (detached) session is a
no-op. -/
theorem cli_c9_witness :
    (closeEv sLive).closed = true ∧ lineEv env0 sClosed "y" = (sClosed, []) := by
  have h := cli_c9_after_close env0
  exact ⟨(h.1 sLive (by decide)).1, h.2.2 sClosed "y" (by decide)⟩
